import Mathlib

/-!
Shallow embedding of `src/scraper.py`: a three-stage pipeline
(link collector → file fetcher → file writer) with a sequential
orchestrator.  Network and filesystem effects are modelled by an
explicit environment (`Env`) and a functional file-system state (`FS`);
Python exceptions are modelled by `Except`, Python `None` by `Option`.
-/

namespace Scraper

/-! ### Python `in` (substring containment) and string helpers -/

/-- `pfxOf n h` : the character list `n` starts the character list `h`. -/
def pfxOf : List Char → List Char → Bool
  | [], _ => true
  | _ :: _, [] => false
  | a :: as, b :: bs => a = b && pfxOf as bs

/-- `inChars n h` : `n` occurs contiguously inside `h`
(Python `n in h` on strings, specialised to character lists). -/
def inChars (needle : List Char) : List Char → Bool
  | [] => needle.isEmpty
  | c :: t => pfxOf needle (c :: t) || inChars needle t

/-- Python's substring test `needle in hay`. -/
def pyIn (needle hay : String) : Bool :=
  inChars needle.toList hay.toList

/-! ### `urllib.parse.urlsplit` / `urlparse` / `urlunparse`
Embedded from CPython's `urllib/parse.py`, restricted to what
`scraper.py` touches (no IPv6-bracket validation, no coercion layer). -/

/-- Characters allowed in a URL scheme after the first letter. -/
def schemeChar (c : Char) : Bool :=
  c.isAlphanum || c = '+' || c = '-' || c = '.'

/-- WHATWG C0-control-or-space class stripped from the front of a URL. -/
def c0OrSpace (c : Char) : Bool := c.toNat ≤ 0x20

/-- Bytes CPython removes anywhere in a URL before splitting. -/
def tabCrLf (c : Char) : Bool := c = '\t' || c = '\r' || c = '\n'

structure SplitUrl where
  scheme : String
  netloc : String
  path : String
  query : String
  fragment : String
deriving Repr, DecidableEq

/-- CPython `urlsplit` (with default `scheme=''`, `allow_fragments=True`). -/
def urlsplit (url : String) : SplitUrl :=
  let cs := (url.toList.dropWhile c0OrSpace).filter (fun c => !tabCrLf c)
  let schemeRest : String × List Char :=
    match cs.findIdx? (fun c => c = ':') with
    | some i =>
      if decide (0 < i) && (cs.take i).all schemeChar && (cs.headD ' ').isAlpha then
        (String.mk ((cs.take i).map Char.toLower), cs.drop (i + 1))
      else ("", cs)
    | none => ("", cs)
  let scheme := schemeRest.fst
  let rest := schemeRest.snd
  let netlocRest : String × List Char :=
    if rest.take 2 = ['/', '/'] then
      let after := rest.drop 2
      (String.mk (after.takeWhile (fun c => !(c = '/' || c = '?' || c = '#'))),
       after.dropWhile (fun c => !(c = '/' || c = '?' || c = '#')))
    else ("", rest)
  let netloc := netlocRest.fst
  let rest2 := netlocRest.snd
  let fragSplit : List Char × String :=
    match rest2.dropWhile (fun c => c != '#') with
    | [] => (rest2, "")
    | _ :: t => (rest2.takeWhile (fun c => c != '#'), String.mk t)
  let querySplit : List Char × String :=
    match fragSplit.fst.dropWhile (fun c => c != '?') with
    | [] => (fragSplit.fst, "")
    | _ :: t => (fragSplit.fst.takeWhile (fun c => c != '?'), String.mk t)
  { scheme := scheme, netloc := netloc, path := String.mk querySplit.fst,
    query := querySplit.snd, fragment := fragSplit.snd }

structure ParsedUrl where
  scheme : String
  netloc : String
  path : String
  params : String
  query : String
  fragment : String
deriving Repr, DecidableEq

/-- CPython `_splitparams`, on the path part.  (Only invoked when a `';'`
is present, so the `none` fallback coincides with CPython's guarded use.) -/
def splitparams (cs : List Char) : String × String :=
  let found : Option Nat :=
    if cs.contains '/' then
      let r := cs.length - 1 - ((cs.reverse.findIdx? (fun c => c = '/')).getD 0)
      ((cs.drop r).findIdx? (fun c => c = ';')).map (fun j => r + j)
    else cs.findIdx? (fun c => c = ';')
  match found with
  | none => (String.mk cs, "")
  | some i => (String.mk (cs.take i), String.mk (cs.drop (i + 1)))

/-- CPython `urlparse`. -/
def urlparse (url : String) : ParsedUrl :=
  let s := urlsplit url
  if s.path.toList.contains ';' then
    let pp := splitparams s.path.toList
    ⟨s.scheme, s.netloc, pp.fst, pp.snd, s.query, s.fragment⟩
  else
    ⟨s.scheme, s.netloc, s.path, "", s.query, s.fragment⟩

/-- CPython `urlunsplit`. -/
def urlunsplit (scheme netloc url query fragment : String) : String :=
  let u1 :=
    if netloc ≠ "" ∨ (url ≠ "" ∧ url.toList.take 2 = ['/', '/']) then
      "//" ++ netloc ++ (if url ≠ "" ∧ url.toList.take 1 ≠ ['/'] then "/" ++ url else url)
    else url
  let u2 := if scheme ≠ "" then scheme ++ ":" ++ u1 else u1
  let u3 := if query ≠ "" then u2 ++ "?" ++ query else u2
  if fragment ≠ "" then u3 ++ "#" ++ fragment else u3

/-- CPython `urlunparse`. -/
def urlunparse (scheme netloc path params query fragment : String) : String :=
  let p := if params ≠ "" then path ++ ";" ++ params else path
  urlunsplit scheme netloc p query fragment

/-- The scheme+host string `scraper.py` lines 22-23 compute:
`urlunparse([url_parts.scheme, url_parts.netloc, "", "", "", ""])`. -/
def derivedPfx (url : String) : String :=
  let url_parts := urlparse url
  urlunparse url_parts.scheme url_parts.netloc "" "" "" ""

/-! ### Effect model -/

/-- One parsed `<a>` element as seen through `node.get("href")`:
the attribute is either absent (`none`) or some string. -/
structure Anchor where
  href : Option String
deriving Repr, DecidableEq

/-- Functional file-system state: path ↦ file contents (bytes as `List Nat`). -/
abbrev FS := String → Option (List Nat)

/-- Outcome of one raw `httpx.get`: a transport-level exception carrying the
request URL, or a response with a final request URL, status and body. -/
inductive HttpResult where
  | transportError (requestUrl msg : String)
  | response (requestUrl : String) (status : Nat) (content : List Nat)
deriving Repr, DecidableEq

/-- External world for one run.  `listing` is the plain `httpx.get(url).text`
of line 24 (its body already parsed by BeautifulSoup into anchors; a
transport error is an uncaught exception, hence `Except`).  `httpGet` is the
redirect-following, 10s-timeout GET of line 44.  `writeOk` says whether a
binary write to a path succeeds or raises `IOError`. -/
structure Env where
  listing : String → Except String (List Anchor)
  httpGet : String → HttpResult
  writeOk : String → Bool

/-! ### The five functions of `scraper.py` -/

/-- Lines 21-23: `if not prefix:` — Python truthiness, so both `None`
and `""` trigger derivation from the URL. -/
def effectivePfx (url : String) (pfxArg : Option String) : String :=
  match pfxArg with
  | none => derivedPfx url
  | some p => if p = "" then derivedPfx url else p

/-- `assemble_links` (lines 10-29).  A transport error on the listing GET
propagates as `.error`; otherwise anchors with a truthy (present, non-empty)
href are prefixed and then filtered by substring containment. -/
def assemble_links (env : Env) (url contains : String) (pfxArg : Option String := none) :
    Except String (List String) :=
  let pfx := effectivePfx url pfxArg
  match env.listing url with
  | .error e => .error e
  | .ok soup =>
    let links := soup.filterMap fun node =>
      match node.href with
      | some h => if h = "" then none else some (pfx ++ h)
      | none => none
    .ok (links.filter fun i => pyIn contains i)

/-- `download_file` (lines 32-49): returns the body on 2xx, and on any
`httpx.HTTPError` (transport error, or non-2xx via `raise_for_status`)
prints a diagnostic quoting `e.request.url` and returns `None`.
Result: (returned value, printed diagnostics). -/
def download_file (env : Env) (url : String) : Option (List Nat) × List String :=
  match env.httpGet url with
  | .transportError ru msg =>
    (none, ["Error while requesting '" ++ ru ++ "'.\n" ++ msg])
  | .response ru status content =>
    if 200 ≤ status ∧ status < 300 then
      (some content, [])
    else
      (none, ["Error while requesting '" ++ ru ++ "'.\n" ++
              "HTTP status error " ++ toString status ++ " for url '" ++ ru ++ "'"])

/-- `write_file` (lines 52-70): on success the file at `local_path` holds
exactly `content` (created or overwritten) and the returned status string
names the path; on `IOError` the state is unchanged and a failure string
is returned. -/
def write_file (env : Env) (content : List Nat) (local_path : String) (fs : FS) :
    String × FS :=
  if env.writeOk local_path then
    ("Completed write to: " ++ local_path,
     fun p => if p = local_path then some content else fs p)
  else
    ("Failed to write to: " ++ local_path, fs)

/-- Split a character list at `'/'` (as `str.split("/")` would). -/
def splitSlash : List Char → List Char → List String
  | acc, [] => [String.mk acc.reverse]
  | acc, c :: t =>
    if c = '/' then String.mk acc.reverse :: splitSlash [] t
    else splitSlash (c :: acc) t

/-- `pathlib.Path(s).name`: the last non-empty `/`-separated segment. -/
def pathName (s : String) : String :=
  ((((splitSlash [] s.toList).filter (fun seg => seg ≠ "")).getLast?).getD "")

/-- Python truthiness of `dl_bytes` at line 90: `None` and `b""` are falsy. -/
def dlTruthy : Option (List Nat) → Bool
  | none => false
  | some b => !b.isEmpty

/-- The `for link, fname in zip(links, fnames):` loop of lines 88-93,
threading the file system and the success counter `fcount`. -/
def dlLoop (env : Env) (out_dir : String) :
    List (String × String) → FS → Nat → Nat × FS
  | [], fs, fcount => (fcount, fs)
  | (link, fname) :: rest, fs, fcount =>
    match (download_file env link).fst with
    | some dl_bytes =>
      if dl_bytes.isEmpty then
        dlLoop env out_dir rest fs fcount
      else
        let w := write_file env dl_bytes (out_dir ++ "/" ++ fname) fs
        dlLoop env out_dir rest w.snd (fcount + 1)
    | none => dlLoop env out_dir rest fs fcount

/-- `get_link_data` (lines 73-94): returns `((fcount, len(links)), fs')`,
or propagates the listing-fetch error from `assemble_links`. -/
def get_link_data (env : Env) (url contains out_dir : String) (fs : FS) :
    Except String ((Nat × Nat) × FS) :=
  match assemble_links env url contains none with
  | .error e => .error e
  | .ok links =>
    let fnames := links.map pathName
    let r := dlLoop env out_dir (links.zip fnames) fs 0
    .ok ((r.fst, links.length), r.snd)

/-- The `(count, total)` pair `get_link_data` hands to `main`. -/
def runCounts (env : Env) (url contains out_dir : String) (fs : FS) :
    Except String (Nat × Nat) :=
  (get_link_data env url contains out_dir fs).map (fun r => r.fst)

/-- `main` (lines 97-112) observable output: it prints `count` downloads
and `total - count` failures (directory creation and timing are I/O noise
with no effect on the counts). -/
def main_report (env : Env) (url contains out_dir : String) (fs : FS) :
    Except String (Nat × Nat) :=
  match get_link_data env url contains out_dir fs with
  | .error e => .error e
  | .ok ((count, total), _) => .ok (count, total - count)

/-! ### Derived observables used by the claims -/

/-- The loop's per-link success test: the fetch returned truthy bytes. -/
def fetchTruthy (env : Env) (link : String) : Bool :=
  dlTruthy (download_file env link).fst

/-- Whether the write the loop would perform for `link` succeeds
(the Writer reports success exactly when `writeOk` holds at the path). -/
def writeSucceeded (env : Env) (out_dir link : String) : Bool :=
  env.writeOk (out_dir ++ "/" ++ pathName link)

/-- Number of links whose write the Writer reports as successful
(a write only happens when the fetch was truthy). -/
def successfulWrites (env : Env) (out_dir : String) (links : List String) : Nat :=
  (links.filter (fun l => fetchTruthy env l && writeSucceeded env out_dir l)).length

/-- The Link Collector restated from the spec's words: collect every anchor
whose href is present and non-empty, prepend the prefix string, keep links
containing the filter substring, in document order with duplicates. -/
def collectorSpec (anchors : List Anchor) (pfx c : String) : List String :=
  ((((anchors.filterMap Anchor.href).filter (fun h => h ≠ "")).map
    (fun h => pfx ++ h)).filter (fun l => pyIn c l))

/-- Collapse an empty-body fetch result into the `None` failure signal. -/
def collapseEmpty : Option (List Nat) → Option (List Nat)
  | some [] => none
  | r => r

/-! ### Lemmas about substring containment -/

theorem pfxOf_refl (l : List Char) : pfxOf l l = true := by
  induction l with
  | nil => rfl
  | cons a as ih => simp [pfxOf, ih]

theorem pfxOf_append (n h t : List Char) (hp : pfxOf n h = true) :
    pfxOf n (h ++ t) = true := by
  induction n generalizing h with
  | nil => rfl
  | cons a as ih =>
    cases h with
    | nil => simp [pfxOf] at hp
    | cons b bs =>
      simp only [pfxOf, Bool.and_eq_true, decide_eq_true_eq] at hp
      simp only [List.cons_append, pfxOf, Bool.and_eq_true, decide_eq_true_eq]
      exact ⟨hp.1, ih bs hp.2⟩

theorem inChars_nil (h : List Char) : inChars [] h = true := by
  cases h with
  | nil => rfl
  | cons c t => simp [inChars, pfxOf]

theorem inChars_of_pfxOf (n h : List Char) (hp : pfxOf n h = true) :
    inChars n h = true := by
  cases h with
  | nil =>
    cases n with
    | nil => rfl
    | cons a as => simp [pfxOf] at hp
  | cons c t => simp [inChars, hp]

theorem inChars_append_right (n h t : List Char) (hi : inChars n h = true) :
    inChars n (h ++ t) = true := by
  induction h with
  | nil =>
    simp only [inChars, List.isEmpty_iff] at hi
    subst hi
    exact inChars_nil t
  | cons c cs ih =>
    simp only [inChars, Bool.or_eq_true] at hi
    rcases hi with hp | hrest
    · exact inChars_of_pfxOf _ _ (by simpa using pfxOf_append n (c :: cs) t hp)
    · simp only [List.cons_append, inChars, Bool.or_eq_true]
      exact Or.inr (ih hrest)

theorem inChars_append_left (n h t : List Char) (hi : inChars n h = true) :
    inChars n (t ++ h) = true := by
  induction t with
  | nil => simpa using hi
  | cons c cs ih =>
    simp only [List.cons_append, inChars, Bool.or_eq_true]
    exact Or.inr ih

theorem inChars_self (n : List Char) : inChars n n = true :=
  inChars_of_pfxOf n n (pfxOf_refl n)

theorem pyIn_append_right (c pfx h : String) (hp : pyIn c pfx = true) :
    pyIn c (pfx ++ h) = true := by
  unfold pyIn at *
  rw [show (pfx ++ h).toList = pfx.toList ++ h.toList from String.data_append pfx h]
  exact inChars_append_right _ _ _ hp

theorem pyIn_append_left (s t : String) : pyIn s (t ++ s) = true := by
  unfold pyIn
  rw [show (t ++ s).toList = t.toList ++ s.toList from String.data_append t s]
  exact inChars_append_left _ _ _ (inChars_self _)

theorem str_append_ne_empty (a b : String) (hb : b ≠ "") : a ++ b ≠ "" := by
  intro h
  apply hb
  have hd : (a ++ b).data = ("" : String).data := congrArg String.data h
  rw [String.data_append] at hd
  have : b.data = [] := (List.append_eq_nil.mp hd).2
  cases b
  simp_all

/-! ### Lemmas about the Link Collector -/

theorem filterMap_href (anchors : List Anchor) (pfx : String) :
    (anchors.filterMap fun node =>
      match node.href with
      | some h => if h = "" then none else some (pfx ++ h)
      | none => none) =
    ((anchors.filterMap Anchor.href).filter (fun h => h ≠ "")).map (fun h => pfx ++ h) := by
  induction anchors with
  | nil => rfl
  | cons a rest ih =>
    cases ha : a.href with
    | none => simp [List.filterMap_cons, ha, ih]
    | some h =>
      by_cases he : h = ""
      · subst he
        simp [List.filterMap_cons, ha, ih]
      · simp [List.filterMap_cons, ha, he, ih]

theorem assemble_links_ok (env : Env) (url c : String) (pfxArg : Option String)
    (anchors : List Anchor) (h : env.listing url = .ok anchors) :
    assemble_links env url c pfxArg =
      .ok (collectorSpec anchors (effectivePfx url pfxArg) c) := by
  simp only [assemble_links, collectorSpec, h, filterMap_href]

/-! ### Lemmas about the download loop -/

theorem dlLoop_fst (env : Env) (out : String) (pairs : List (String × String)) :
    ∀ (fs : FS) (n : Nat),
    (dlLoop env out pairs fs n).fst =
      n + pairs.countP (fun p => fetchTruthy env p.fst) := by
  induction pairs with
  | nil =>
    intro fs n
    simp [dlLoop]
  | cons p rest ih =>
    obtain ⟨link, fname⟩ := p
    intro fs n
    rw [List.countP_cons]
    cases hd : (download_file env link).fst with
    | none =>
      have ht : fetchTruthy env link = false := by simp [fetchTruthy, hd, dlTruthy]
      simp [dlLoop, hd, ih, ht]
    | some bs =>
      cases bs with
      | nil =>
        have ht : fetchTruthy env link = false := by simp [fetchTruthy, hd, dlTruthy]
        simp [dlLoop, hd, ih, ht]
      | cons b bs2 =>
        have ht : fetchTruthy env link = true := by simp [fetchTruthy, hd, dlTruthy]
        simp [dlLoop, hd, ih, ht]
        omega

theorem countP_zip_map (f : String → Bool) (g : String → String) (l : List String) :
    (l.zip (l.map g)).countP (fun p => f p.fst) = l.countP f := by
  induction l with
  | nil => rfl
  | cons a rest ih =>
    simp only [List.map_cons, List.zip_cons_cons, List.countP_cons, ih]

theorem get_link_data_ok (env : Env) (url c out : String) (fs : FS) (links : List String)
    (h : assemble_links env url c none = .ok links) :
    get_link_data env url c out fs =
      .ok ((links.countP (fetchTruthy env), links.length),
           (dlLoop env out (links.zip (links.map pathName)) fs 0).snd) := by
  have hc : (dlLoop env out (links.zip (links.map pathName)) fs 0).fst =
      links.countP (fetchTruthy env) := by
    rw [dlLoop_fst, countP_zip_map]
    omega
  simp only [get_link_data, h, hc]

theorem dlLoop_collapse (env env2 : Env) (out : String)
    (hw : env2.writeOk = env.writeOk)
    (hf : ∀ u, (download_file env2 u).fst = collapseEmpty (download_file env u).fst)
    (pairs : List (String × String)) : ∀ (fs : FS) (n : Nat),
    dlLoop env2 out pairs fs n = dlLoop env out pairs fs n := by
  induction pairs with
  | nil => intro fs n; rfl
  | cons p rest ih =>
    obtain ⟨link, fname⟩ := p
    intro fs n
    cases hd : (download_file env link).fst with
    | none =>
      have hd2 : (download_file env2 link).fst = none := by
        rw [hf, hd]; rfl
      simp only [dlLoop, hd, hd2, ih]
    | some bs =>
      cases bs with
      | nil =>
        have hd2 : (download_file env2 link).fst = none := by
          rw [hf, hd]; rfl
        simp only [dlLoop, hd, hd2, List.isEmpty_nil, if_pos, ih]
      | cons b bs2 =>
        have hd2 : (download_file env2 link).fst = some (b :: bs2) := by
          rw [hf, hd]; rfl
        have hwf : write_file env2 (b :: bs2) (out ++ "/" ++ fname) fs =
            write_file env (b :: bs2) (out ++ "/" ++ fname) fs := by
          simp only [write_file, hw]
        simp only [dlLoop, hd, hd2, List.isEmpty_cons, hwf, ih]

/-! ### Concrete environments for closed instantiations -/

/-- A small listing page: two `cat` links, a `dog` link, one anchor with no
href and one with an empty href. -/
def pageA : List Anchor :=
  [⟨some "/a/cat_1.csv"⟩, ⟨none⟩, ⟨some ""⟩, ⟨some "/a/dog_1.csv"⟩, ⟨some "/a/cat_2.csv"⟩]

/-- Empty file system. -/
def fs0 : FS := fun _ => none

/-- All fetches return a non-empty 200 body; all writes succeed. -/
def envOkWrite : Env :=
  { listing := fun _ => .ok pageA
    httpGet := fun u => .response u 200 [104, 105]
    writeOk := fun _ => true }

/-- Same network behaviour as `envOkWrite`, but every write raises `IOError`. -/
def envBadWrite : Env :=
  { listing := fun _ => .ok pageA
    httpGet := fun u => .response u 200 [104, 105]
    writeOk := fun _ => false }

/-- Every per-file GET yields HTTP 404. -/
def env404 : Env :=
  { listing := fun _ => .ok []
    httpGet := fun u => .response u 404 []
    writeOk := fun _ => true }

/-- The listing GET itself fails with a transport error. -/
def envRefused : Env :=
  { listing := fun _ => .error "connection refused"
    httpGet := fun u => .transportError u "connection refused"
    writeOk := fun _ => true }

/-- Every per-file GET succeeds with a zero-length body. -/
def envEmptyBody : Env :=
  { listing := fun _ => .ok pageA
    httpGet := fun u => .response u 200 []
    writeOk := fun _ => true }

/-- Every per-file GET fails with a transport error. -/
def envFailFetch : Env :=
  { listing := fun _ => .ok pageA
    httpGet := fun u => .transportError u "boom"
    writeOk := fun _ => true }

/-! ### The claims -/

/-- C3: for every page (anchor list) and filter substring, `assemble_links`
returns exactly the document-order list of prefixed hrefs of anchors whose
href is present and non-empty, filtered by substring containment, and every
element of the output contains the filter substring and is non-empty
(`None` entries are excluded by the output type `List String`). -/
theorem assemble_links_matches_collector_spec (env : Env) (url c : String)
    (pfxArg : Option String) (anchors : List Anchor)
    (h : env.listing url = .ok anchors) :
    assemble_links env url c pfxArg =
      .ok (collectorSpec anchors (effectivePfx url pfxArg) c) ∧
    ∀ x ∈ collectorSpec anchors (effectivePfx url pfxArg) c,
      pyIn c x = true ∧ x ≠ "" := by
  refine ⟨assemble_links_ok env url c pfxArg anchors h, ?_⟩
  intro x hx
  unfold collectorSpec at hx
  have hfilter := List.mem_filter.mp hx
  refine ⟨hfilter.2, ?_⟩
  obtain ⟨hh, hhm, hhe⟩ := List.mem_map.mp hfilter.1
  have : hh ≠ "" := by
    have := (List.mem_filter.mp hhm).2
    simpa using this
  rw [← hhe]
  exact str_append_ne_empty _ _ this

theorem assemble_links_matches_collector_spec_witness :
    envOkWrite.listing "http://h/list" = .ok pageA ∧
    assemble_links envOkWrite "http://h/list" "cat" none =
      .ok ["http://h/a/cat_1.csv", "http://h/a/cat_2.csv"] ∧
    pyIn "cat" "http://h/a/cat_1.csv" = true := by
  refine ⟨rfl, ?_, by decide⟩
  rw [(assemble_links_matches_collector_spec envOkWrite "http://h/list" "cat" none
    pageA rfl).1]
  rfl

/-- C6: a successful `write_file` leaves the target path holding exactly the
input bytes (created if absent, fully overwritten if present), leaves every
other path untouched, and returns a success status string containing the
target path. -/
theorem write_file_success_roundtrip (env : Env) (content : List Nat)
    (local_path : String) (fs : FS) (h : env.writeOk local_path = true) :
    write_file env content local_path fs =
      ("Completed write to: " ++ local_path,
       fun p => if p = local_path then some content else fs p) ∧
    (write_file env content local_path fs).snd local_path = some content ∧
    (∀ q, q ≠ local_path → (write_file env content local_path fs).snd q = fs q) ∧
    pyIn local_path (write_file env content local_path fs).fst = true := by
  refine ⟨by simp [write_file, h], by simp [write_file, h], ?_, ?_⟩
  · intro q hq
    simp [write_file, h, hq]
  · simp only [write_file, h, if_pos]
    exact pyIn_append_left local_path "Completed write to: "

theorem write_file_success_roundtrip_witness :
    envOkWrite.writeOk "d/f.bin" = true ∧
    (write_file envOkWrite [1, 2, 3] "d/f.bin" fs0).snd "d/f.bin" = some [1, 2, 3] ∧
    pyIn "d/f.bin" (write_file envOkWrite [1, 2, 3] "d/f.bin" fs0).fst = true := by
  have h := write_file_success_roundtrip envOkWrite [1, 2, 3] "d/f.bin" fs0 rfl
  exact ⟨rfl, h.2.1, h.2.2.2⟩

/-- C10: passing the empty string as the explicit prefix argument behaves
exactly like omitting it: `if not prefix:` treats `""` as absent and derives
the scheme+host prefix from the URL. -/
theorem empty_string_pfx_same_as_none (env : Env) (url c : String) :
    assemble_links env url c (some "") = assemble_links env url c none := by
  simp [assemble_links, effectivePfx]

/-- C9: when the filter substring occurs in the prefix itself, every anchor
with a present, non-empty href is retained, whatever its href contains:
containment is tested against the full prefixed link. -/
theorem pfx_match_retains_all_hrefs (env : Env) (url c : String)
    (pfxArg : Option String) (anchors : List Anchor)
    (h : env.listing url = .ok anchors)
    (hc : pyIn c (effectivePfx url pfxArg) = true) :
    assemble_links env url c pfxArg =
      .ok (((anchors.filterMap Anchor.href).filter (fun hh => hh ≠ "")).map
        (fun hh => effectivePfx url pfxArg ++ hh)) := by
  rw [assemble_links_ok env url c pfxArg anchors h]
  unfold collectorSpec
  congr 1
  apply List.filter_eq_self.mpr
  intro x hx
  obtain ⟨hh, _, hhe⟩ := List.mem_map.mp hx
  rw [← hhe]
  exact pyIn_append_right c _ hh hc

/-- C1 (counterexample): it is not the case that the reported failure count
always equals the total minus the number of successful writes — when a fetch
succeeds but its write fails, the success counter still rises, so the report
shows 0 failures while total − successfulWrites is 2. -/
theorem reported_failures_not_write_based :
    ¬ (∀ (env : Env) (url c out : String) (fs : FS) (links : List String)
        (count total : Nat),
        assemble_links env url c none = .ok links →
        runCounts env url c out fs = .ok (count, total) →
        total = links.length ∧
        total - count = total - successfulWrites env out links) := by
  intro hclaim
  have h2 := (hclaim envBadWrite "http://h/list" "cat" "d" fs0
      ["http://h/a/cat_1.csv", "http://h/a/cat_2.csv"] 2 2 rfl rfl).2
  have hsw : successfulWrites envBadWrite "d"
      ["http://h/a/cat_1.csv", "http://h/a/cat_2.csv"] = 0 := rfl
  rw [hsw] at h2
  omega

/-- C1 (amended): the run summary's total equals the number of links the
Collector returned, and the reported failure count equals the total minus
the number of links whose fetch returned non-empty content (the success
counter), not the number of successful writes. -/
theorem reported_counts_eq_links_and_truthy_fetches (env : Env)
    (url c out : String) (fs : FS) (links : List String)
    (h : assemble_links env url c none = .ok links) :
    runCounts env url c out fs = .ok (links.countP (fetchTruthy env), links.length) ∧
    main_report env url c out fs =
      .ok (links.countP (fetchTruthy env),
           links.length - links.countP (fetchTruthy env)) := by
  have hg := get_link_data_ok env url c out fs links h
  constructor
  · simp only [runCounts, hg, Except.map]
  · simp only [main_report, hg]

theorem reported_counts_eq_links_and_truthy_fetches_witness :
    assemble_links envBadWrite "http://h/list" "cat" none =
      .ok ["http://h/a/cat_1.csv", "http://h/a/cat_2.csv"] ∧
    main_report envBadWrite "http://h/list" "cat" "d" fs0 = .ok (2, 0) := by
  refine ⟨rfl, ?_⟩
  have h := (reported_counts_eq_links_and_truthy_fetches envBadWrite "http://h/list"
      "cat" "d" fs0 ["http://h/a/cat_1.csv", "http://h/a/cat_2.csv"] rfl).2
  exact h

/-- C2: the success counter is incremented exactly for links whose fetch
returns non-empty content; the count is unchanged under any modification of
the write layer (a failed write still counts as a success). -/
theorem success_counter_ignores_write_outcome (env env2 : Env)
    (url c out : String) (fs fs2 : FS) (links : List String)
    (h : assemble_links env url c none = .ok links)
    (hl : env2.listing = env.listing) (hg : env2.httpGet = env.httpGet) :
    runCounts env url c out fs = .ok (links.countP (fetchTruthy env), links.length) ∧
    runCounts env2 url c out fs2 = .ok (links.countP (fetchTruthy env), links.length) := by
  have h2 : assemble_links env2 url c none = .ok links := by
    simp only [assemble_links, hl]
    simpa only [assemble_links] using h
  have hfe : fetchTruthy env2 = fetchTruthy env := by
    funext l
    simp [fetchTruthy, download_file, hg]
  constructor
  · exact (reported_counts_eq_links_and_truthy_fetches env url c out fs links h).1
  · rw [← hfe]
    exact (reported_counts_eq_links_and_truthy_fetches env2 url c out fs2 links h2).1

theorem success_counter_ignores_write_outcome_witness :
    assemble_links envOkWrite "http://h/list" "cat" none =
      .ok ["http://h/a/cat_1.csv", "http://h/a/cat_2.csv"] ∧
    envBadWrite.listing = envOkWrite.listing ∧
    envBadWrite.httpGet = envOkWrite.httpGet ∧
    runCounts envOkWrite "http://h/list" "cat" "d" fs0 = .ok (2, 2) ∧
    runCounts envBadWrite "http://h/list" "cat" "d" fs0 = .ok (2, 2) := by
  have h := success_counter_ignores_write_outcome envOkWrite envBadWrite
      "http://h/list" "cat" "d" fs0 fs0
      ["http://h/a/cat_1.csv", "http://h/a/cat_2.csv"] rfl rfl rfl
  exact ⟨rfl, rfl, rfl, h.1, h.2⟩

/-- C4: when the GET for a URL ends in a transport-level error or a non-2xx
status, `download_file` returns `None` instead of raising, and the logged
diagnostic mentions the requested URL. -/
theorem download_file_error_none_and_logs_url (env : Env) (url msg : String)
    (status : Nat) (content : List Nat)
    (h : env.httpGet url = .transportError url msg ∨
         (env.httpGet url = .response url status content ∧
          ¬(200 ≤ status ∧ status < 300))) :
    (download_file env url).fst = none ∧
    ∃ line ∈ (download_file env url).snd, pyIn url line = true := by
  rcases h with ht | ⟨hr, hs⟩
  · refine ⟨by simp [download_file, ht], ?_⟩
    refine ⟨"Error while requesting '" ++ url ++ "'.\n" ++ msg,
      by simp [download_file, ht], ?_⟩
    exact pyIn_append_right _ _ _ (pyIn_append_right _ _ _ (pyIn_append_left _ _))
  · refine ⟨by simp [download_file, hr, hs], ?_⟩
    refine ⟨"Error while requesting '" ++ url ++ "'.\n" ++
        "HTTP status error " ++ toString status ++ " for url '" ++ url ++ "'",
      by simp [download_file, hr, hs], ?_⟩
    exact pyIn_append_right _ _ _ (pyIn_append_right _ _ _ (pyIn_append_right _ _ _
      (pyIn_append_right _ _ _ (pyIn_append_right _ _ _ (pyIn_append_right _ _ _
        (pyIn_append_left _ _))))))

theorem download_file_error_none_and_logs_url_witness :
    (env404.httpGet "http://x/f.csv" = .response "http://x/f.csv" 404 [] ∧
     ¬(200 ≤ 404 ∧ 404 < 300)) ∧
    (download_file env404 "http://x/f.csv").fst = none ∧
    ∃ line ∈ (download_file env404 "http://x/f.csv").snd,
      pyIn "http://x/f.csv" line = true := by
  refine ⟨⟨rfl, by decide⟩, ?_⟩
  exact download_file_error_none_and_logs_url env404 "http://x/f.csv" "" 404 []
    (Or.inr ⟨rfl, by decide⟩)

/-- C5: a transport error on the initial listing GET is not caught:
`assemble_links` and `get_link_data` both surface the error unchanged
(terminating the run), whereas with a successful listing fetch the run
always completes normally no matter how the per-file fetches behave. -/
theorem listing_fetch_error_propagates (env : Env) (url c out : String)
    (fs : FS) (e : String) (he : env.listing url = .error e) :
    assemble_links env url c none = .error e ∧
    get_link_data env url c out fs = .error e ∧
    (∀ (env2 : Env) (anchors : List Anchor), env2.listing url = .ok anchors →
      ∃ r, get_link_data env2 url c out fs = .ok r) := by
  have ha : assemble_links env url c none = .error e := by
    simp [assemble_links, he]
  refine ⟨ha, by simp [get_link_data, ha], ?_⟩
  intro env2 anchors h2
  exact ⟨_, get_link_data_ok env2 url c out fs _
    (assemble_links_ok env2 url c none anchors h2)⟩

theorem listing_fetch_error_propagates_witness :
    envRefused.listing "http://h/list" = .error "connection refused" ∧
    assemble_links envRefused "http://h/list" "cat" none =
      .error "connection refused" ∧
    get_link_data envRefused "http://h/list" "cat" "d" fs0 =
      .error "connection refused" := by
  have h := listing_fetch_error_propagates envRefused "http://h/list" "cat" "d"
      fs0 "connection refused" rfl
  exact ⟨rfl, h.1, h.2.1⟩

/-- C7: with no prefix argument, the prefix is
`urlunparse([scheme, netloc, "", "", "", ""])` of the parsed URL — it
depends only on the URL's scheme and host, so any two URLs sharing those
components yield the same prefix and (over the same page) the same links;
path, query and fragment are discarded. -/
theorem derived_pfx_ignores_path_query_fragment (env : Env) (c u1 u2 : String)
    (hs : (urlparse u1).scheme = (urlparse u2).scheme)
    (hn : (urlparse u1).netloc = (urlparse u2).netloc)
    (hp : env.listing u1 = env.listing u2) :
    derivedPfx u1 = urlunparse (urlparse u1).scheme (urlparse u1).netloc "" "" "" "" ∧
    derivedPfx u1 = derivedPfx u2 ∧
    assemble_links env u1 c none = assemble_links env u2 c none := by
  have hd : derivedPfx u1 = derivedPfx u2 := by
    simp only [derivedPfx]
    rw [hs, hn]
  refine ⟨rfl, hd, ?_⟩
  simp only [assemble_links, effectivePfx, hd, hp]

theorem derived_pfx_ignores_path_query_fragment_witness :
    (urlparse "http://h/a/b?q=1#sec").scheme = (urlparse "http://h").scheme ∧
    (urlparse "http://h/a/b?q=1#sec").netloc = (urlparse "http://h").netloc ∧
    derivedPfx "http://h/a/b?q=1#sec" = "http://h" ∧
    derivedPfx "http://h/a/b?q=1#sec" = derivedPfx "http://h" ∧
    assemble_links envOkWrite "http://h/a/b?q=1#sec" "cat" none =
      assemble_links envOkWrite "http://h" "cat" none := by
  have h := derived_pfx_ignores_path_query_fragment envOkWrite "cat"
      "http://h/a/b?q=1#sec" "http://h" rfl rfl rfl
  exact ⟨rfl, rfl, rfl, h.2.1, h.2.2⟩

/-- C8: a fetch that succeeds with a zero-length body is handled exactly like
a fetch failure — the loop step neither writes a file nor increments the
counter, and a whole run is indistinguishable from one where such fetches
return the `None` failure signal (the loop tests truthiness, under which
`b""` and `None` coincide). -/
theorem empty_body_treated_as_fetch_failure (env env2 : Env)
    (url c out link fname : String) (rest : List (String × String))
    (fs : FS) (n : Nat)
    (hd : (download_file env link).fst = some [])
    (hl : env2.listing = env.listing) (hw : env2.writeOk = env.writeOk)
    (hf : ∀ u, (download_file env2 u).fst = collapseEmpty (download_file env u).fst) :
    dlLoop env out ((link, fname) :: rest) fs n = dlLoop env out rest fs n ∧
    get_link_data env2 url c out fs = get_link_data env url c out fs := by
  constructor
  · simp [dlLoop, hd]
  · have ha : assemble_links env2 url c none = assemble_links env url c none := by
      simp only [assemble_links, hl]
    unfold get_link_data
    rw [ha]
    cases hres : assemble_links env url c none with
    | error e => rfl
    | ok links =>
      simp only [dlLoop_collapse env env2 out hw hf]

theorem empty_body_treated_as_fetch_failure_witness :
    (download_file envEmptyBody "http://h/a/cat_1.csv").fst = some [] ∧
    envFailFetch.listing = envEmptyBody.listing ∧
    envFailFetch.writeOk = envEmptyBody.writeOk ∧
    dlLoop envEmptyBody "d" [("http://h/a/cat_1.csv", "cat_1.csv")] fs0 0 =
      dlLoop envEmptyBody "d" [] fs0 0 ∧
    get_link_data envFailFetch "http://h/list" "cat" "d" fs0 =
      get_link_data envEmptyBody "http://h/list" "cat" "d" fs0 ∧
    runCounts envEmptyBody "http://h/list" "cat" "d" fs0 = .ok (0, 2) := by
  have h := empty_body_treated_as_fetch_failure envEmptyBody envFailFetch
      "http://h/list" "cat" "d" "http://h/a/cat_1.csv" "cat_1.csv" [] fs0 0
      rfl rfl rfl (fun u => rfl)
  exact ⟨rfl, rfl, rfl, h.1, h.2, rfl⟩

theorem pfx_match_retains_all_hrefs_witness :
    envOkWrite.listing "http://h/list" = .ok pageA ∧
    pyIn "http" (effectivePfx "http://h/list" none) = true ∧
    assemble_links envOkWrite "http://h/list" "http" none =
      .ok ["http://h/a/cat_1.csv", "http://h/a/dog_1.csv", "http://h/a/cat_2.csv"] := by
  refine ⟨rfl, by decide, ?_⟩
  rw [pfx_match_retains_all_hrefs envOkWrite "http://h/list" "http" none pageA rfl
    (by decide)]
  rfl

end Scraper
